import Mathlib

/-!
Shallow embedding of the hydrus client binding (src/python/hydrus/__init__.py).

The Python module defines a `Client` class wrapping an HTTP+JSON API: a
dispatcher `_call_endpoint` that attaches the access-key header, issues the
request and classifies HTTP failure statuses, plus one thin method per endpoint
that reshapes the JSON response (enum coercion, tag-status re-keying).

Python values decoded from JSON are modelled by `PyValue`; dictionaries are
association lists in insertion order, mirroring CPython dict semantics
(assignment keeps the position of an existing key and appends a fresh key at
the end; `del` removes the key). Exceptions are modelled with `Except` over
`PyError`. The HTTP transport is an explicit function argument, and every
operation also returns the list of outbound requests it issued, so that
"no network call is made" is expressible as that list being empty.
-/

namespace Hydrus

/-- `Permission(enum.IntEnum)` from the source. -/
inductive Permission where
  | ImportURLs
  | ImportFiles
  | AddTags
  | SearchFiles
deriving DecidableEq

def Permission.toInt : Permission → Int
  | .ImportURLs => 0
  | .ImportFiles => 1
  | .AddTags => 2
  | .SearchFiles => 3

/-- `Permission(n)`: the member with value `n`, if any. -/
def Permission.ofInt? : Int → Option Permission
  | 0 => some .ImportURLs
  | 1 => some .ImportFiles
  | 2 => some .AddTags
  | 3 => some .SearchFiles
  | _ => none

/-- `URLType(enum.IntEnum)` from the source (note: value 1 is absent). -/
inductive URLType where
  | PostURL
  | FileURL
  | GalleryURL
  | WatchableURL
  | UnknownURL
deriving DecidableEq

def URLType.toInt : URLType → Int
  | .PostURL => 0
  | .FileURL => 2
  | .GalleryURL => 3
  | .WatchableURL => 4
  | .UnknownURL => 5

def URLType.ofInt? : Int → Option URLType
  | 0 => some .PostURL
  | 2 => some .FileURL
  | 3 => some .GalleryURL
  | 4 => some .WatchableURL
  | 5 => some .UnknownURL
  | _ => none

/-- `ImportStatus(enum.IntEnum)` from the source (values 5 and 6 are absent). -/
inductive ImportStatus where
  | Importable
  | Success
  | Exists
  | PreviouslyDeleted
  | Failed
  | Vetoed
deriving DecidableEq

def ImportStatus.toInt : ImportStatus → Int
  | .Importable => 0
  | .Success => 1
  | .Exists => 2
  | .PreviouslyDeleted => 3
  | .Failed => 4
  | .Vetoed => 7

def ImportStatus.ofInt? : Int → Option ImportStatus
  | 0 => some .Importable
  | 1 => some .Success
  | 2 => some .Exists
  | 3 => some .PreviouslyDeleted
  | 4 => some .Failed
  | 7 => some .Vetoed
  | _ => none

/-- `TagAction(enum.IntEnum)` from the source (part of the vocabulary; not
used by any response translation). -/
inductive TagAction where
  | Add
  | Delete
  | Pend
  | RescindPending
  | Petition
  | RescindPetition
deriving DecidableEq

def TagAction.toInt : TagAction → Int
  | .Add => 0
  | .Delete => 1
  | .Pend => 2
  | .RescindPending => 3
  | .Petition => 4
  | .RescindPetition => 5

/-- `TagStatus(enum.IntEnum)` from the source. -/
inductive TagStatus where
  | Current
  | Pending
  | Deleted
  | Petitioned
deriving DecidableEq

def TagStatus.toInt : TagStatus → Int
  | .Current => 0
  | .Pending => 1
  | .Deleted => 2
  | .Petitioned => 3

def TagStatus.ofInt? : Int → Option TagStatus
  | 0 => some .Current
  | 1 => some .Pending
  | 2 => some .Deleted
  | 3 => some .Petitioned
  | _ => none

/-- A Python dict key as it occurs in this module: either a str (all keys
decoded from JSON are strings) or a `TagStatus` enum member (introduced by the
re-keying loop of `file_metadata`). Distinct constructors never compare equal,
matching Python, where a str never equals an `IntEnum` member. -/
inductive PyKey where
  | str (s : String)
  | tagStatus (t : TagStatus)
deriving DecidableEq

/-- A Python value as handled by this module: JSON-decoded data, bytes
(request/response bodies), and the typed enum members substituted in by the
response translators. -/
inductive PyValue where
  | null
  | bool (b : Bool)
  | int (n : Int)
  | str (s : String)
  | bytes (b : List Nat)
  | arr (elems : List PyValue)
  | obj (fields : List (PyKey × PyValue))
  | permission (p : Permission)
  | urlType (u : URLType)
  | importStatus (s : ImportStatus)
  | tagStatus (t : TagStatus)

/-- Python truthiness (`bool(x)`) for the values above. `IntEnum` members are
truthy iff their integer value is nonzero. -/
def pyTruthy : PyValue → Bool
  | .null => false
  | .bool b => b
  | .int n => n != 0
  | .str s => s != ""
  | .bytes b => !b.isEmpty
  | .arr elems => !elems.isEmpty
  | .obj fields => !fields.isEmpty
  | .permission p => p.toInt != 0
  | .urlType u => u.toInt != 0
  | .importStatus s => s.toInt != 0
  | .tagStatus t => t.toInt != 0

/-- The integer behind a value, for contexts (enum construction, `==` against
an int) where Python accepts int-like values: bools and `IntEnum` members are
their integer value. -/
def pyIntLike? : PyValue → Option Int
  | .int n => some n
  | .bool b => some (if b then 1 else 0)
  | .permission p => some p.toInt
  | .urlType u => some u.toInt
  | .importStatus s => some s.toInt
  | .tagStatus t => some t.toInt
  | _ => none

/-- Python `x == n` for an int `n` on the right. -/
def PyValue.eqInt (v : PyValue) (n : Int) : Bool :=
  match pyIntLike? v with
  | some m => m == n
  | none => false

/-- Python dict membership test on an insertion-ordered association list. -/
def dictHasKey {κ α : Type} [DecidableEq κ] : List (κ × α) → κ → Bool
  | [], _ => false
  | p :: rest, k => if p.1 = k then true else dictHasKey rest k

/-- Python `d[k]` lookup (`none` when the key is absent). -/
def dictGet? {κ α : Type} [DecidableEq κ] : List (κ × α) → κ → Option α
  | [], _ => none
  | p :: rest, k => if p.1 = k then some p.2 else dictGet? rest k

/-- Python `d[k] = v`: replace in place when the key exists, append at the end
otherwise. -/
def dictSet {κ α : Type} [DecidableEq κ] (l : List (κ × α)) (k : κ) (v : α) :
    List (κ × α) :=
  if dictHasKey l k then l.map (fun p => if p.1 = k then (k, v) else p)
  else l ++ [(k, v)]

/-- Python `del d[k]`. -/
def dictDel {κ α : Type} [DecidableEq κ] (l : List (κ × α)) (k : κ) :
    List (κ × α) :=
  l.filter (fun p => if p.1 = k then false else true)

/-- Escaping of `"` and backslash as `json.dumps` performs it. Control
characters and non-ASCII escaping are not modelled (never exercised here). -/
def jsonEscape (s : String) : String :=
  String.mk (s.data.foldr
    (fun c acc =>
      if c = '\\' then '\\' :: '\\' :: acc
      else if c = '"' then '\\' :: '"' :: acc
      else c :: acc) [])

/-- The string a dict key serializes to under `json.dumps` (an `IntEnum` key
serializes as its integer value). -/
def dumpsKey : PyKey → String
  | .str s => "\"" ++ jsonEscape s ++ "\""
  | .tagStatus t => "\"" ++ toString t.toInt ++ "\""

mutual

/-- `json.dumps` with its default separators, on the value shapes this module
passes to it. (`json.dumps` raises `TypeError` on bytes; that input never
occurs here and is mapped to the empty string.) -/
def dumps : PyValue → String
  | .null => "null"
  | .bool true => "true"
  | .bool false => "false"
  | .int n => toString n
  | .str s => "\"" ++ jsonEscape s ++ "\""
  | .bytes _ => ""
  | .arr elems => "[" ++ String.intercalate ", " (dumpsList elems) ++ "]"
  | .obj fields => "\x7b" ++ String.intercalate ", " (dumpsFields fields) ++ "\x7d"
  | .permission p => toString p.toInt
  | .urlType u => toString u.toInt
  | .importStatus s => toString s.toInt
  | .tagStatus t => toString t.toInt

def dumpsList : List PyValue → List String
  | [] => []
  | v :: rest => dumps v :: dumpsList rest

def dumpsFields : List (PyKey × PyValue) → List String
  | [] => []
  | (k, v) :: rest => (dumpsKey k ++ ": " ++ dumps v) :: dumpsFields rest

end

/-- An outbound HTTP request as `self._session.request(method, url, **kwargs)`
receives it: headers, query params, and either a JSON body (`json=`) or a raw
body (`data=`). -/
structure HttpRequest where
  method : String
  url : String
  headers : List (String × String)
  params : List (String × PyValue)
  jsonBody : Option PyValue
  rawBody : Option (List Nat)

/-- An HTTP response: status code, JSON-decoded body (`response.json()`),
and raw bytes (`response.content`). -/
structure HttpResponse where
  statusCode : Nat
  body : PyValue
  content : List Nat

/-- The error classes raised by `_call_endpoint`. `Generic` is the base class
`APIError` raised directly for status codes with no dedicated subclass. Every
constructor carries the original response object. -/
inductive APIError where
  | MissingParameter (response : HttpResponse)
  | InsufficientAccess (response : HttpResponse)
  | ServerError (response : HttpResponse)
  | Generic (response : HttpResponse)

/-- `self.response` of an `APIError`: the original response it was raised
with. -/
def APIError.response : APIError → HttpResponse
  | .MissingParameter r => r
  | .InsufficientAccess r => r
  | .ServerError r => r
  | .Generic r => r

/-- The Python exceptions that can escape this module: the `APIError` taxonomy,
bare `Exception` (the mutual-exclusion usage checks), `ValueError` (bad
`add_file` argument, enum value outside its closed set), `KeyError` (missing
JSON field) and `TypeError`-like failures (wrongly-shaped JSON data). -/
inductive PyError where
  | api (e : APIError)
  | exception (msg : String)
  | valueError (msg : String)
  | keyError (key : String)
  | typeErr (msg : String)

/-- Is the error a bare `Exception` (the class used by the usage checks)? -/
def PyError.isException : PyError → Bool
  | .exception _ => true
  | _ => false

/-- The `try: response.raise_for_status() / except:` block of
`_call_endpoint`. `requests.Response.raise_for_status` raises `HTTPError`
exactly for status codes in `[400, 600)`; the except-clause then classifies
400, 401/403, 500 and falls through to the base `APIError`. Statuses outside
`[400, 600)` (2xx, but also 1xx, 3xx, and anything at or above 600) raise
nothing and the response is returned. -/
def handleStatus (response : HttpResponse) : Except PyError HttpResponse :=
  if 400 ≤ response.statusCode ∧ response.statusCode < 600 then
    .error (.api
      (if response.statusCode = 400 then .MissingParameter response
       else if response.statusCode = 401 ∨ response.statusCode = 403 then
         .InsufficientAccess response
       else if response.statusCode = 500 then .ServerError response
       else .Generic response))
  else .ok response

/-- The header-merging step of `_call_endpoint`:
`if self._access_key: kwargs.setdefault('headers', dict()).update(...)`.
The key is attached only when truthy (non-`None` and non-empty). -/
def attachAccessKey (access_key : Option String) (headers : List (String × String)) :
    List (String × String) :=
  match access_key with
  | some key =>
      if key = "" then headers
      else dictSet headers "Hydrus-Client-API-Access-Key" key
  | none => headers

/-- `url.rstrip('/')` as performed once in `Client.__init__`. -/
def rstripSlashes (s : String) : String :=
  String.mk ((s.data.reverse.dropWhile (fun ch => ch = '/')).reverse)

/-- The client state captured at construction: `self._access_key` and
`self._url` (already stripped of trailing slashes). The `requests` session
holds no state this embedding needs. -/
structure Client where
  _access_key : Option String
  _url : String

def Client.VERSION : Int := 4

def _DEFAULT_API_URL : String := "http://127.0.0.1:45869/"

def Client._API_VERSION_ENDPOINT : String := "/api_version"

def Client._REQUEST_NEW_PERMISSIONS_ENDPOINT : String := "/request_new_permissions"

def Client._VERIFY_ACCESS_KEY_ENDPOINT : String := "/verify_access_key"

def Client._ADD_FILE_ENDPOINT : String := "/add_files/add_file"

def Client._CLEAN_TAGS_ENDPOINT : String := "/add_tags/clean_tags"

def Client._GET_TAG_SERVICES_ENDPOINT : String := "/add_tags/get_tag_services"

def Client._ADD_TAGS_ENDPOINT : String := "/add_tags/add_tags"

def Client._GET_URL_FILES_ENDPOINT : String := "/add_urls/get_url_files"

def Client._GET_URL_INFO_ENDPOINT : String := "/add_urls/get_url_info"

def Client._ADD_URL_ENDPOINT : String := "/add_urls/add_url"

def Client._ASSOCIATE_URL_ENDPOINT : String := "/add_urls/associate_url"

def Client._SEARCH_FILES_ENDPOINT : String := "/get_files/search_files"

def Client._FILE_METADATA_ENDPOINT : String := "/get_files/file_metadata"

def Client._FILE_ENDPOINT : String := "/get_files/file"

def Client._THUMBNAIL_ENDPOINT : String := "/get_files/thumbnail"

/-- The HTTP transport (the `requests` session): a function from the outbound
request to the response it produces. -/
abbrev Transport := HttpRequest → HttpResponse

/-- A transport stub that answers every request with a fixed response. -/
def stubTransport (response : HttpResponse) : Transport := fun _ => response

/-- `Client._call_endpoint`: attach the access-key header when the key is
truthy, send the request to `self._url + endpoint`, raise the classified
error for failure statuses, otherwise return the response. The second
component records the outbound requests (here always exactly one). -/
def Client._call_endpoint (c : Client) (t : Transport) (method endpoint : String)
    (params : List (String × PyValue)) (headers : List (String × String))
    (jsonBody : Option PyValue) (rawBody : Option (List Nat)) :
    Except PyError HttpResponse × List HttpRequest :=
  let req : HttpRequest :=
    ⟨method, c._url ++ endpoint, attachAccessKey c._access_key headers,
      params, jsonBody, rawBody⟩
  (handleStatus (t req), [req])

/-- Python `data[key]` for a string key: `KeyError` if the key is absent,
`TypeError` if `data` is not a dict. -/
def getItem (data : PyValue) (key : String) : Except PyError PyValue :=
  match data with
  | .obj fields =>
      match dictGet? fields (PyKey.str key) with
      | some v => .ok v
      | none => .error (.keyError key)
  | _ => .error (.typeErr "object is not subscriptable")

/-- Python `data[key] = v` for a string key on a dict. -/
def setItem (data : PyValue) (key : String) (v : PyValue) : Except PyError PyValue :=
  match data with
  | .obj fields => .ok (.obj (dictSet fields (PyKey.str key) v))
  | _ => .error (.typeErr "object does not support item assignment")

/-- `Permission(value)`: `ValueError` when the int is outside the closed set
or the value is not int-like. -/
def coercePermission (v : PyValue) : Except PyError PyValue :=
  match pyIntLike? v with
  | some n =>
      match Permission.ofInt? n with
      | some p => .ok (.permission p)
      | none => .error (.valueError (toString n ++ " is not a valid Permission"))
  | none => .error (.valueError "value is not a valid Permission")

/-- `URLType(value)`. -/
def coerceURLType (v : PyValue) : Except PyError PyValue :=
  match pyIntLike? v with
  | some n =>
      match URLType.ofInt? n with
      | some u => .ok (.urlType u)
      | none => .error (.valueError (toString n ++ " is not a valid URLType"))
  | none => .error (.valueError "value is not a valid URLType")

/-- `ImportStatus(value)`. -/
def coerceImportStatus (v : PyValue) : Except PyError PyValue :=
  match pyIntLike? v with
  | some n =>
      match ImportStatus.ofInt? n with
      | some s => .ok (.importStatus s)
      | none => .error (.valueError (toString n ++ " is not a valid ImportStatus"))
  | none => .error (.valueError "value is not a valid ImportStatus")

/-- A list comprehension `[f(value) for value in values]` over a decoded JSON
list, propagating the first exception `f` raises. -/
def coerceList (f : PyValue → Except PyError PyValue) :
    List PyValue → Except PyError (List PyValue)
  | [] => .ok []
  | v :: rest => (f v).bind fun v1 => (coerceList f rest).map (v1 :: ·)

/-- The value of a decimal digit character, if it is one (48 is the code
point of the zero digit). -/
def digitVal? (c : Char) : Option Nat :=
  if '0' ≤ c ∧ c ≤ '9' then some (c.toNat - 48) else none

/-- Accumulate the value of a digit run (failing at the first non-digit). -/
def digitsValAux : List Char → Nat → Option Nat
  | [], acc => some acc
  | c :: rest, acc => (digitVal? c).bind fun d => digitsValAux rest (acc * 10 + d)

/-- Python `int(s)` on the inputs relevant here: an optional sign followed by
at least one decimal digit (Python additionally strips whitespace and
underscores, which never occur in status keys). -/
def pyIntParse? (s : String) : Option Int :=
  match s.data with
  | [] => none
  | '-' :: rest =>
      match rest with
      | [] => none
      | _ => (digitsValAux rest 0).map fun m => -(m : Int)
  | '+' :: rest =>
      match rest with
      | [] => none
      | _ => (digitsValAux rest 0).map fun m => (m : Int)
  | l => (digitsValAux l 0).map fun m => (m : Int)

/-- `TagStatus(int(status))` for one key of a statuses dict: parse the string
to an int (`ValueError` on failure), then look it up in the closed enum
(`ValueError` outside the set). A key that is already a `TagStatus` member
(never produced by JSON decoding) maps to itself, as in Python. -/
def statusKeyToTagStatus : PyKey → Except PyError TagStatus
  | .str s =>
      match pyIntParse? s with
      | none => .error (.valueError ("invalid literal for int with base 10: " ++ s))
      | some n =>
          match TagStatus.ofInt? n with
          | some ts => .ok ts
          | none => .error (.valueError (toString n ++ " is not a valid TagStatus"))
  | .tagStatus ts => .ok ts

/-- The inner loop of `file_metadata`:
`for status, tags in list(status_to_tags.items()):` over the snapshot, with
`d[TagStatus(int(status))] = tags` followed by `del d[status]` mutating the
live dict `d`. -/
def rekeyLoop : List (PyKey × PyValue) → List (PyKey × PyValue) →
    Except PyError (List (PyKey × PyValue))
  | [], d => .ok d
  | (status, tags) :: rest, d =>
      (statusKeyToTagStatus status).bind fun new_status =>
        rekeyLoop rest (dictDel (dictSet d (.tagStatus new_status) tags) status)

/-- Re-key one service entry of `service_names_to_statuses_to_tags`: the
snapshot iterated over is the dict itself. -/
def rekeyStatuses (status_to_tags : List (PyKey × PyValue)) :
    Except PyError (List (PyKey × PyValue)) :=
  rekeyLoop status_to_tags status_to_tags

/-- The middle loop of `file_metadata`:
`for service, status_to_tags in services_to_statuses.items():`, re-keying each
service entry in place (`TypeError` stands in for the `AttributeError` Python
raises when an entry is not a dict). -/
def translateServices : List (PyKey × PyValue) →
    Except PyError (List (PyKey × PyValue))
  | [] => .ok []
  | (service, status_to_tags) :: rest =>
      match status_to_tags with
      | .obj inner =>
          (rekeyStatuses inner).bind fun inner1 =>
            (translateServices rest).map fun rest1 =>
              (service, PyValue.obj inner1) :: rest1
      | _ => .error (.typeErr "object has no attribute items")

/-- One record of the `file_metadata` outer loop: fetch
`datum['service_names_to_statuses_to_tags']`, re-key every service entry,
store the mutated dict back (in place, so its position is preserved). -/
def translateRecord (datum : PyValue) : Except PyError PyValue :=
  (getItem datum "service_names_to_statuses_to_tags").bind fun sns =>
    match sns with
    | .obj services =>
        (translateServices services).bind fun services1 =>
          setItem datum "service_names_to_statuses_to_tags" (.obj services1)
    | _ => .error (.typeErr "object has no attribute items")

/-- `for datum in data:` of `file_metadata`, over the list of file records. -/
def translateMetadata : List PyValue → Except PyError (List PyValue)
  | [] => .ok []
  | datum :: rest =>
      (translateRecord datum).bind fun datum1 =>
        (translateMetadata rest).map fun rest1 => datum1 :: rest1

/-- `Client.api_version` (a property): GET `/api_version`, return
`response.json()['version']`. -/
def Client.api_version (c : Client) (t : Transport) :
    Except PyError PyValue × List HttpRequest :=
  let call := c._call_endpoint t "GET" Client._API_VERSION_ENDPOINT [] [] none none
  (call.1.bind fun response => getItem response.body "version", call.2)

/-- The message `warnings.warn` receives on a version mismatch (Python
formats the reported value with `str`; only int-valued reports are rendered
faithfully here). -/
def versionWarning (v : PyValue) : String :=
  "Version of API module (v" ++ toString Client.VERSION ++ ") and API endpoint (v"
    ++ (match v with
        | .int n => toString n
        | .str s => s
        | .bool true => "True"
        | .bool false => "False"
        | _ => dumps v)
    ++ ") differ, this might lead to incompatibilities."

/-- `Client.__init__`: store the key, strip trailing slashes off the url once,
then fetch `self.api_version` and warn (non-fatally) when it differs from
`Client.VERSION`. Returns the constructed client (or the propagated
exception if the version fetch failed), the warnings emitted, and the
requests issued. -/
def Client.init (access_key : Option String) (url : String) (t : Transport) :
    Except PyError Client × List String × List HttpRequest :=
  let c : Client := ⟨access_key, rstripSlashes url⟩
  let call := c.api_version t
  match call.1 with
  | .error e => (.error e, [], call.2)
  | .ok v =>
      if v.eqInt Client.VERSION then (.ok c, [], call.2)
      else (.ok c, [versionWarning v], call.2)

/-- `Client.request_new_permissions`. -/
def Client.request_new_permissions (c : Client) (t : Transport)
    (name : String) (permissions : PyValue) :
    Except PyError PyValue × List HttpRequest :=
  let call := c._call_endpoint t "GET" Client._REQUEST_NEW_PERMISSIONS_ENDPOINT
    [("name", .str name), ("basic_permissions", .str (dumps permissions))] [] none none
  (call.1.bind fun response => getItem response.body "access_key", call.2)

/-- `Client.verify_access_key`: replace each int of
`data['basic_permissions']` by the `Permission` member. -/
def Client.verify_access_key (c : Client) (t : Transport) :
    Except PyError PyValue × List HttpRequest :=
  let call := c._call_endpoint t "GET" Client._VERIFY_ACCESS_KEY_ENDPOINT [] [] none none
  (call.1.bind fun response =>
    (getItem response.body "basic_permissions").bind fun bp =>
      match bp with
      | .arr values =>
          (coerceList coercePermission values).bind fun values1 =>
            setItem response.body "basic_permissions" (.arr values1)
      | _ => .error (.typeErr "object is not iterable"),
   call.2)

/-- The argument of `add_file`: a `str` path, an `io.BytesIO` whose `read()`
yields the given bytes, or a value of any other type. -/
inductive AddFileArg where
  | str (path : String)
  | bytesBuf (content : List Nat)
  | other

/-- The shared response translation of `add_file`:
`data['status'] = ImportStatus(data['status'])`. -/
def addFileTranslate (response : HttpResponse) : Except PyError PyValue :=
  (getItem response.body "status").bind fun s =>
    (coerceImportStatus s).bind fun s1 => setItem response.body "status" s1

/-- `Client.add_file`: a str is sent as `json=dict(path=...)`; an `io.BytesIO`
is sent as `data=f.read()` with a `Content-Type: application/octet-stream`
header; anything else raises `ValueError` before any request is made. -/
def Client.add_file (c : Client) (t : Transport) (path_or_file : AddFileArg) :
    Except PyError PyValue × List HttpRequest :=
  match path_or_file with
  | .str path =>
      let call := c._call_endpoint t "POST" Client._ADD_FILE_ENDPOINT [] []
        (some (.obj [(.str "path", .str path)])) none
      (call.1.bind addFileTranslate, call.2)
  | .bytesBuf content =>
      let call := c._call_endpoint t "POST" Client._ADD_FILE_ENDPOINT []
        [("Content-Type", "application/octet-stream")] none (some content)
      (call.1.bind addFileTranslate, call.2)
  | .other => (.error (.valueError "Value must be file object or path"), [])

/-- `Client.clean_tags`. -/
def Client.clean_tags (c : Client) (t : Transport) (tags : PyValue) :
    Except PyError PyValue × List HttpRequest :=
  let call := c._call_endpoint t "GET" Client._CLEAN_TAGS_ENDPOINT
    [("tags", .str (dumps tags))] [] none none
  (call.1.bind fun response => getItem response.body "tags", call.2)

/-- `Client.get_tag_services`. -/
def Client.get_tag_services (c : Client) (t : Transport) :
    Except PyError PyValue × List HttpRequest :=
  let call := c._call_endpoint t "GET" Client._GET_TAG_SERVICES_ENDPOINT [] [] none none
  (call.1.map fun response => response.body, call.2)

/-- `Client.add_tags`: build the JSON body, including the optional dicts only
when truthy; returns `None`. -/
def Client.add_tags (c : Client) (t : Transport) (hashes : PyValue)
    (services_to_tags : PyValue) (services_to_actions : PyValue) :
    Except PyError PyValue × List HttpRequest :=
  let json1 : List (PyKey × PyValue) := [(.str "hashes", hashes)]
  let json2 := if pyTruthy services_to_tags then
      dictSet json1 (.str "service_names_to_tags") services_to_tags else json1
  let json3 := if pyTruthy services_to_actions then
      dictSet json2 (.str "service_names_to_actions_to_tags") services_to_actions
    else json2
  let call := c._call_endpoint t "POST" Client._ADD_TAGS_ENDPOINT [] []
    (some (.obj json3)) none
  (call.1.map fun _ => .null, call.2)

/-- The body of the `get_url_files` loop for one element of
`url_file_statuses`:
`file_status['status'] = ImportStatus(file_status['status'])`. -/
def urlFileStatusTranslate (file_status : PyValue) : Except PyError PyValue :=
  (getItem file_status "status").bind fun s =>
    (coerceImportStatus s).bind fun s1 => setItem file_status "status" s1

/-- `Client.get_url_files`: replace the int `status` of every element of
`data['url_file_statuses']` by the `ImportStatus` member. -/
def Client.get_url_files (c : Client) (t : Transport) (url : String) :
    Except PyError PyValue × List HttpRequest :=
  let call := c._call_endpoint t "GET" Client._GET_URL_FILES_ENDPOINT
    [("url", .str url)] [] none none
  (call.1.bind fun response =>
    (getItem response.body "url_file_statuses").bind fun statuses =>
      match statuses with
      | .arr items =>
          (coerceList urlFileStatusTranslate items).bind fun items1 =>
            setItem response.body "url_file_statuses" (.arr items1)
      | _ => .error (.typeErr "object is not iterable"),
   call.2)

/-- `Client.get_url_info`: `data['url_type'] = URLType(data['url_type'])`. -/
def Client.get_url_info (c : Client) (t : Transport) (url : String) :
    Except PyError PyValue × List HttpRequest :=
  let call := c._call_endpoint t "GET" Client._GET_URL_INFO_ENDPOINT
    [("url", .str url)] [] none none
  (call.1.bind fun response =>
    (getItem response.body "url_type").bind fun u =>
      (coerceURLType u).bind fun u1 => setItem response.body "url_type" u1,
   call.2)

/-- `Client.add_url`: build the JSON body with the optional members only when
truthy; return the decoded response body. -/
def Client.add_url (c : Client) (t : Transport) (url : String)
    (page_name : PyValue) (service_to_tags : PyValue) :
    Except PyError PyValue × List HttpRequest :=
  let json1 : List (PyKey × PyValue) := [(.str "url", .str url)]
  let json2 := if pyTruthy page_name then
      dictSet json1 (.str "destination_page_name") page_name else json1
  let json3 := if pyTruthy service_to_tags then
      dictSet json2 (.str "service_names_to_tags") service_to_tags else json2
  let call := c._call_endpoint t "POST" Client._ADD_URL_ENDPOINT [] []
    (some (.obj json3)) none
  (call.1.map fun response => response.body, call.2)

/-- `Client.associate_url`; returns `None`. -/
def Client.associate_url (c : Client) (t : Transport) (hashes : PyValue)
    (add : PyValue) (delete : PyValue) :
    Except PyError PyValue × List HttpRequest :=
  let json1 : List (PyKey × PyValue) := [(.str "hashes", hashes)]
  let json2 := if pyTruthy add then dictSet json1 (.str "urls_to_add") add else json1
  let json3 := if pyTruthy delete then
      dictSet json2 (.str "urls_to_delete") delete else json2
  let call := c._call_endpoint t "POST" Client._ASSOCIATE_URL_ENDPOINT [] []
    (some (.obj json3)) none
  (call.1.map fun _ => .null, call.2)

/-- `Client.search_files`: return `response.json()['file_ids']` with no
reshaping. -/
def Client.search_files (c : Client) (t : Transport) (tags : PyValue)
    (inbox : Bool) (archive : Bool) :
    Except PyError PyValue × List HttpRequest :=
  let call := c._call_endpoint t "GET" Client._SEARCH_FILES_ENDPOINT
    [("tags", .str (dumps tags)), ("system_inbox", .str (dumps (.bool inbox))),
     ("system_archive", .str (dumps (.bool archive)))] [] none none
  (call.1.bind fun response => getItem response.body "file_ids", call.2)

/-- The response translation of `file_metadata`: take
`response.json()['metadata']`; in identifier-only mode return it untouched,
otherwise run the re-keying loops over every record. -/
def fileMetadataTranslate (only_identifiers : Bool) (response : HttpResponse) :
    Except PyError PyValue :=
  (getItem response.body "metadata").bind fun data =>
    if only_identifiers then .ok data
    else
      match data with
      | .arr records => (translateMetadata records).map PyValue.arr
      | _ => .error (.typeErr "object is not iterable")

/-- `Client.file_metadata`: `bool(hashes) ^ bool(file_ids)` must hold, else a
bare `Exception` is raised before any request; in non-identifier-only mode
every record has its `service_names_to_statuses_to_tags` entry re-keyed from
raw string status codes to `TagStatus` members. -/
def Client.file_metadata (c : Client) (t : Transport)
    (hashes : PyValue) (file_ids : PyValue) (only_identifiers : Bool) :
    Except PyError PyValue × List HttpRequest :=
  if !(Bool.xor (pyTruthy hashes) (pyTruthy file_ids)) then
    (.error (.exception "hashes (exclusive) or file_ids required"), [])
  else
    let params1 : List (String × PyValue) :=
      if pyTruthy hashes then [("hashes", .str (dumps hashes))] else []
    let params2 := if pyTruthy file_ids then
        params1 ++ [("file_ids", .str (dumps file_ids))] else params1
    let params3 := if only_identifiers then
        params2 ++ [("only_return_identifiers", .str (dumps (.bool only_identifiers)))]
      else params2
    let call := c._call_endpoint t "GET" Client._FILE_METADATA_ENDPOINT
      params3 [] none none
    (call.1.bind (fileMetadataTranslate only_identifiers), call.2)

/-- `Client.get_file`: `bool(hash_) ^ bool(file_id)` must hold, else a bare
`Exception` is raised before any request; returns `response.content`. -/
def Client.get_file (c : Client) (t : Transport)
    (hash_ : PyValue) (file_id : PyValue) :
    Except PyError PyValue × List HttpRequest :=
  if !(Bool.xor (pyTruthy hash_) (pyTruthy file_id)) then
    (.error (.exception "hash (exclusive) or file_id required"), [])
  else
    let params : List (String × PyValue) :=
      if pyTruthy hash_ then [("hash", hash_)]
      else if pyTruthy file_id then [("file_id", file_id)]
      else []
    let call := c._call_endpoint t "GET" Client._FILE_ENDPOINT params [] none none
    (call.1.map fun response => .bytes response.content, call.2)

/-- `Client.get_thumbnail`: identical to `get_file` against the thumbnail
endpoint. -/
def Client.get_thumbnail (c : Client) (t : Transport)
    (hash_ : PyValue) (file_id : PyValue) :
    Except PyError PyValue × List HttpRequest :=
  if !(Bool.xor (pyTruthy hash_) (pyTruthy file_id)) then
    (.error (.exception "hash (exclusive) or file_id required"), [])
  else
    let params : List (String × PyValue) :=
      if pyTruthy hash_ then [("hash", hash_)]
      else if pyTruthy file_id then [("file_id", file_id)]
      else []
    let call := c._call_endpoint t "GET" Client._THUMBNAIL_ENDPOINT params [] none none
    (call.1.map fun response => .bytes response.content, call.2)

/-- One invocation of a public `Client` operation, with its arguments. -/
inductive OpCall where
  | api_version
  | request_new_permissions (name : String) (permissions : PyValue)
  | verify_access_key
  | add_file (path_or_file : AddFileArg)
  | clean_tags (tags : PyValue)
  | get_tag_services
  | add_tags (hashes services_to_tags services_to_actions : PyValue)
  | get_url_files (url : String)
  | get_url_info (url : String)
  | add_url (url : String) (page_name service_to_tags : PyValue)
  | associate_url (hashes add delete : PyValue)
  | search_files (tags : PyValue) (inbox archive : Bool)
  | file_metadata (hashes file_ids : PyValue) (only_identifiers : Bool)
  | get_file (hash_ file_id : PyValue)
  | get_thumbnail (hash_ file_id : PyValue)

/-- The outcome of dispatching one operation: the client state afterwards (no
method ever reassigns `self._access_key` or `self._url`, so it is the input
client), the returned value or raised exception, and the outbound requests. -/
structure OpResult where
  client : Client
  result : Except PyError PyValue
  requests : List HttpRequest

/-- Dispatch one operation on a client. -/
def runOp (c : Client) (t : Transport) : OpCall → OpResult
  | .api_version => let r := c.api_version t; ⟨c, r.1, r.2⟩
  | .request_new_permissions name permissions =>
      let r := c.request_new_permissions t name permissions; ⟨c, r.1, r.2⟩
  | .verify_access_key => let r := c.verify_access_key t; ⟨c, r.1, r.2⟩
  | .add_file path_or_file => let r := c.add_file t path_or_file; ⟨c, r.1, r.2⟩
  | .clean_tags tags => let r := c.clean_tags t tags; ⟨c, r.1, r.2⟩
  | .get_tag_services => let r := c.get_tag_services t; ⟨c, r.1, r.2⟩
  | .add_tags hashes stt sta => let r := c.add_tags t hashes stt sta; ⟨c, r.1, r.2⟩
  | .get_url_files url => let r := c.get_url_files t url; ⟨c, r.1, r.2⟩
  | .get_url_info url => let r := c.get_url_info t url; ⟨c, r.1, r.2⟩
  | .add_url url page_name stt => let r := c.add_url t url page_name stt; ⟨c, r.1, r.2⟩
  | .associate_url hashes add delete =>
      let r := c.associate_url t hashes add delete; ⟨c, r.1, r.2⟩
  | .search_files tags inbox archive =>
      let r := c.search_files t tags inbox archive; ⟨c, r.1, r.2⟩
  | .file_metadata hashes file_ids oi =>
      let r := c.file_metadata t hashes file_ids oi; ⟨c, r.1, r.2⟩
  | .get_file hash_ file_id => let r := c.get_file t hash_ file_id; ⟨c, r.1, r.2⟩
  | .get_thumbnail hash_ file_id =>
      let r := c.get_thumbnail t hash_ file_id; ⟨c, r.1, r.2⟩

/-- The `TagStatus` a statuses-dict key will be re-keyed to, when
`TagStatus(int(key))` succeeds. -/
def statusKeyParses : PyKey → Option TagStatus
  | .str s => (pyIntParse? s).bind TagStatus.ofInt?
  | .tagStatus _ => none

/-- Modelled from the spec, for comparison with the source loop: replace each
raw string status key by the corresponding `TagStatus` member, preserving the
associated tag list. -/
def specRekeyEntry (p : PyKey × PyValue) : PyKey × PyValue :=
  match statusKeyParses p.1 with
  | some ts => (PyKey.tagStatus ts, p.2)
  | none => p

/-- Modelled from the spec: re-key a whole statuses dict entrywise. -/
def specRekeyInner (inner : List (PyKey × PyValue)) : List (PyKey × PyValue) :=
  inner.map specRekeyEntry

/-- Modelled from the spec: the per-service re-keying, applied independently
to each tag-service entry. -/
def specRekeyServices (services : List (PyKey × PyValue)) :
    List (PyKey × PyValue) :=
  services.map fun p =>
    match p.2 with
    | .obj inner => (p.1, PyValue.obj (specRekeyInner inner))
    | _ => p

/-- Well-formedness of one statuses dict as the service reports it: every key
is a string holding a known status code, and no two keys code the same
status (true of any real response, where the keys of one dict are distinct
status codes). -/
def innerOk (inner : List (PyKey × PyValue)) : Prop :=
  (∀ p ∈ inner, (statusKeyParses p.1).isSome = true) ∧
    (inner.map fun p => (specRekeyEntry p).1).Nodup

/-! ### Dictionary lemmas -/

theorem dictHasKey_eq_false_iff {κ α : Type} [DecidableEq κ]
    (l : List (κ × α)) (k : κ) :
    dictHasKey l k = false ↔ ∀ p ∈ l, p.1 ≠ k := by
  induction l with
  | nil => simp [dictHasKey]
  | cons p rest ih =>
    by_cases hp : p.1 = k <;> simp [dictHasKey, hp, ih]

theorem dictGet?_append_of_not_has {κ α : Type} [DecidableEq κ]
    (l m : List (κ × α)) (k : κ) (h : dictHasKey l k = false) :
    dictGet? (l ++ m) k = dictGet? m k := by
  induction l with
  | nil => rfl
  | cons p rest ih =>
    by_cases hp : p.1 = k
    · simp [dictHasKey, hp] at h
    · simp only [List.cons_append, dictGet?, if_neg hp]
      exact ih (by simpa [dictHasKey, hp] using h)

theorem dictGet?_map_set_self {κ α : Type} [DecidableEq κ]
    (l : List (κ × α)) (k : κ) (v : α) (h : dictHasKey l k = true) :
    dictGet? (l.map (fun p => if p.1 = k then (k, v) else p)) k = some v := by
  induction l with
  | nil => simp [dictHasKey] at h
  | cons p rest ih =>
    by_cases hp : p.1 = k
    · simp [dictGet?, hp]
    · simp only [List.map_cons, if_neg hp, dictGet?]
      exact ih (by simpa [dictHasKey, hp] using h)

theorem dictGet?_set_self {κ α : Type} [DecidableEq κ]
    (l : List (κ × α)) (k : κ) (v : α) :
    dictGet? (dictSet l k v) k = some v := by
  unfold dictSet
  by_cases h : dictHasKey l k = true
  · rw [if_pos h]
    exact dictGet?_map_set_self l k v h
  · rw [if_neg (by simpa using h)]
    rw [dictGet?_append_of_not_has l _ k (by simpa using h)]
    simp [dictGet?]

theorem dictGet?_map_set_ne {κ α : Type} [DecidableEq κ]
    (l : List (κ × α)) (k k1 : κ) (v : α) (hne : k1 ≠ k) :
    dictGet? (l.map (fun p => if p.1 = k then (k, v) else p)) k1 = dictGet? l k1 := by
  induction l with
  | nil => rfl
  | cons p rest ih =>
    by_cases hp : p.1 = k
    · simp only [List.map_cons, if_pos hp, dictGet?]
      rw [if_neg (fun e => hne e.symm), if_neg (fun e => hne (hp ▸ e).symm)]
      exact ih
    · simp only [List.map_cons, if_neg hp, dictGet?]
      by_cases hp1 : p.1 = k1 <;> simp [hp1, ih]

theorem dictGet?_append_single_ne {κ α : Type} [DecidableEq κ]
    (l : List (κ × α)) (k k1 : κ) (v : α) (hne : k1 ≠ k) :
    dictGet? (l ++ [(k, v)]) k1 = dictGet? l k1 := by
  induction l with
  | nil => simp [dictGet?, hne.symm]
  | cons p rest ih =>
    by_cases hp : p.1 = k1 <;> simp [dictGet?, hp, ih]

theorem dictGet?_set_ne {κ α : Type} [DecidableEq κ]
    (l : List (κ × α)) (k k1 : κ) (v : α) (hne : k1 ≠ k) :
    dictGet? (dictSet l k v) k1 = dictGet? l k1 := by
  unfold dictSet
  by_cases h : dictHasKey l k = true
  · rw [if_pos h]; exact dictGet?_map_set_ne l k k1 v hne
  · rw [if_neg (by simpa using h)]; exact dictGet?_append_single_ne l k k1 v hne

theorem dictSet_append_of_not_has {κ α : Type} [DecidableEq κ]
    (l : List (κ × α)) (k : κ) (v : α) (h : dictHasKey l k = false) :
    dictSet l k v = l ++ [(k, v)] := by
  unfold dictSet
  rw [if_neg (by simp [h])]

theorem dictDel_of_not_mem {κ α : Type} [DecidableEq κ]
    (l : List (κ × α)) (k : κ) (h : ∀ p ∈ l, p.1 ≠ k) :
    dictDel l k = l := by
  induction l with
  | nil => rfl
  | cons p rest ih =>
    unfold dictDel
    rw [List.filter_cons, if_pos (by simp [h p (by simp)])]
    exact congrArg (p :: ·) (ih fun q hq => h q (by simp [hq]))

theorem dictDel_cons_self {κ α : Type} [DecidableEq κ]
    (l : List (κ × α)) (k : κ) (v : α) :
    dictDel ((k, v) :: l) k = dictDel l k := by
  unfold dictDel
  rw [List.filter_cons, if_neg (by simp)]

theorem dictDel_append {κ α : Type} [DecidableEq κ]
    (l m : List (κ × α)) (k : κ) :
    dictDel (l ++ m) k = dictDel l k ++ dictDel m k := by
  unfold dictDel
  exact List.filter_append l m

/-! ### Header lemmas -/

theorem attachAccessKey_none (headers : List (String × String)) :
    attachAccessKey none headers = headers := rfl

theorem attachAccessKey_empty (headers : List (String × String)) :
    attachAccessKey (some "") headers = headers := by
  simp [attachAccessKey]

theorem dictGet?_attachAccessKey_some (k : String) (headers : List (String × String))
    (hk : k ≠ "") :
    dictGet? (attachAccessKey (some k) headers) "Hydrus-Client-API-Access-Key" = some k := by
  simp only [attachAccessKey]
  rw [if_neg hk]
  exact dictGet?_set_self headers _ k

/-! ### Status handling lemmas -/

theorem handleStatus_ok_of_no_raise (r : HttpResponse)
    (h : ¬(400 ≤ r.statusCode ∧ r.statusCode < 600)) : handleStatus r = .ok r := by
  unfold handleStatus
  rw [if_neg h]

theorem handleStatus_ok_of_2xx (r : HttpResponse)
    (h1 : 200 ≤ r.statusCode) (h2 : r.statusCode < 300) : handleStatus r = .ok r :=
  handleStatus_ok_of_no_raise r (by omega)

theorem handleStatus_error_api (r : HttpResponse) (e : PyError)
    (h : handleStatus r = .error e) : ∃ a, e = .api a ∧ a.response = r := by
  unfold handleStatus at h
  split at h
  · split at h
    · exact ⟨_, (Except.error.inj h).symm, rfl⟩
    · split at h
      · exact ⟨_, (Except.error.inj h).symm, rfl⟩
      · split at h
        · exact ⟨_, (Except.error.inj h).symm, rfl⟩
        · exact ⟨_, (Except.error.inj h).symm, rfl⟩
  · cases h

/-! ### Error-shape lemmas: which code paths can raise a bare `Exception`.
Only the two mutual-exclusion usage checks construct one; every translation
failure is an `APIError`, `ValueError`, `KeyError` or `TypeError`. -/

theorem except_bind_error {α β : Type} (x : Except PyError α)
    (f : α → Except PyError β) (e : PyError) (h : x.bind f = .error e) :
    x = .error e ∨ ∃ a, x = .ok a ∧ f a = .error e := by
  cases x with
  | error e1 => exact Or.inl (by simpa [Except.bind] using h)
  | ok a => exact Or.inr ⟨a, rfl, by simpa [Except.bind] using h⟩

theorem except_map_error {α β : Type} (x : Except PyError α)
    (f : α → β) (e : PyError) (h : x.map f = .error e) : x = .error e := by
  cases x with
  | error e1 => simpa [Except.map] using h
  | ok a => simp [Except.map] at h

theorem handleStatus_not_exception (r : HttpResponse) (e : PyError)
    (h : handleStatus r = .error e) : e.isException = false := by
  obtain ⟨a, rfl, -⟩ := handleStatus_error_api r e h
  rfl

theorem getItem_not_exception (d : PyValue) (k : String) (e : PyError)
    (h : getItem d k = .error e) : e.isException = false := by
  unfold getItem at h
  split at h
  · split at h
    · cases h
    · cases h; rfl
  · cases h; rfl

theorem setItem_not_exception (d : PyValue) (k : String) (v : PyValue) (e : PyError)
    (h : setItem d k v = .error e) : e.isException = false := by
  unfold setItem at h
  split at h
  · cases h
  · cases h; rfl

theorem coercePermission_not_exception (v : PyValue) (e : PyError)
    (h : coercePermission v = .error e) : e.isException = false := by
  unfold coercePermission at h
  split at h
  · split at h
    · cases h
    · cases h; rfl
  · cases h; rfl

theorem coerceURLType_not_exception (v : PyValue) (e : PyError)
    (h : coerceURLType v = .error e) : e.isException = false := by
  unfold coerceURLType at h
  split at h
  · split at h
    · cases h
    · cases h; rfl
  · cases h; rfl

theorem coerceImportStatus_not_exception (v : PyValue) (e : PyError)
    (h : coerceImportStatus v = .error e) : e.isException = false := by
  unfold coerceImportStatus at h
  split at h
  · split at h
    · cases h
    · cases h; rfl
  · cases h; rfl

theorem coerceList_not_exception (f : PyValue → Except PyError PyValue)
    (hf : ∀ v e, f v = .error e → e.isException = false)
    (l : List PyValue) (e : PyError) (h : coerceList f l = .error e) :
    e.isException = false := by
  induction l with
  | nil => cases h
  | cons v rest ih =>
    rcases except_bind_error _ _ _ h with h1 | ⟨a, -, h2⟩
    · exact hf v e h1
    · exact ih (except_map_error _ _ _ h2)

theorem statusKeyToTagStatus_not_exception (k : PyKey) (e : PyError)
    (h : statusKeyToTagStatus k = .error e) : e.isException = false := by
  unfold statusKeyToTagStatus at h
  split at h
  · split at h
    · cases h; rfl
    · split at h
      · cases h
      · cases h; rfl
  · cases h

theorem rekeyLoop_not_exception (l d : List (PyKey × PyValue)) (e : PyError)
    (h : rekeyLoop l d = .error e) : e.isException = false := by
  induction l generalizing d with
  | nil => cases h
  | cons p rest ih =>
    rcases except_bind_error _ _ _ h with h1 | ⟨ts, -, h2⟩
    · exact statusKeyToTagStatus_not_exception p.1 e h1
    · exact ih _ h2

theorem translateServices_not_exception (l : List (PyKey × PyValue)) (e : PyError)
    (h : translateServices l = .error e) : e.isException = false := by
  induction l with
  | nil => cases h
  | cons p rest ih =>
    unfold translateServices at h
    split at h
    · rcases except_bind_error _ _ _ h with h1 | ⟨a, -, h2⟩
      · exact rekeyLoop_not_exception _ _ e h1
      · exact ih (except_map_error _ _ _ h2)
    · cases h; rfl

theorem translateRecord_not_exception (d : PyValue) (e : PyError)
    (h : translateRecord d = .error e) : e.isException = false := by
  unfold translateRecord at h
  rcases except_bind_error _ _ _ h with h1 | ⟨a, -, h2⟩
  · exact getItem_not_exception _ _ _ h1
  · revert h2
    split
    · intro h2
      rcases except_bind_error _ _ _ h2 with h3 | ⟨b, -, h4⟩
      · exact translateServices_not_exception _ _ h3
      · exact setItem_not_exception _ _ _ _ h4
    · intro h2; cases h2; rfl

theorem translateMetadata_not_exception (l : List PyValue) (e : PyError)
    (h : translateMetadata l = .error e) : e.isException = false := by
  induction l with
  | nil => cases h
  | cons d rest ih =>
    rcases except_bind_error _ _ _ h with h1 | ⟨a, -, h2⟩
    · exact translateRecord_not_exception d e h1
    · exact ih (except_map_error _ _ _ h2)

theorem fileMetadataTranslate_not_exception (oi : Bool) (r : HttpResponse)
    (e : PyError) (h : fileMetadataTranslate oi r = .error e) :
    e.isException = false := by
  unfold fileMetadataTranslate at h
  rcases except_bind_error _ _ _ h with h1 | ⟨a, -, h2⟩
  · exact getItem_not_exception _ _ _ h1
  · revert h2
    split
    · intro h2; cases h2
    · split
      · intro h2
        exact translateMetadata_not_exception _ _ (except_map_error _ _ _ h2)
      · intro h2; cases h2; rfl

/-! ### Trailing-slash lemmas -/

theorem dropWhile_slash_replicate_append (n : Nat) (l : List Char) :
    List.dropWhile (fun ch => ch = '/') (List.replicate n '/' ++ l) =
      List.dropWhile (fun ch => ch = '/') l := by
  induction n with
  | zero => simp
  | succ m ih => simp [List.replicate_succ, List.dropWhile_cons, ih]

theorem rstripSlashes_append_slashes (u : String) (n : Nat) :
    rstripSlashes (u ++ String.mk (List.replicate n '/')) = rstripSlashes u := by
  unfold rstripSlashes
  rw [String.data_append]
  simp only [String.data]
  rw [List.reverse_append, List.reverse_replicate,
    dropWhile_slash_replicate_append]

/-! ### Enum coercion lemmas -/

theorem coercePermission_toInt (p : Permission) :
    coercePermission (.int p.toInt) = .ok (.permission p) := by
  cases p <;> rfl

theorem coerceImportStatus_toInt (s : ImportStatus) :
    coerceImportStatus (.int s.toInt) = .ok (.importStatus s) := by
  cases s <;> rfl

theorem coerceURLType_toInt (u : URLType) :
    coerceURLType (.int u.toInt) = .ok (.urlType u) := by
  cases u <;> rfl

theorem coerceList_permission_ok (perms : List Permission) :
    coerceList coercePermission (perms.map fun p => .int p.toInt) =
      .ok (perms.map PyValue.permission) := by
  induction perms with
  | nil => rfl
  | cons p rest ih =>
    simp only [List.map_cons, coerceList, coercePermission_toInt, Except.bind, ih,
      Except.map]

theorem coerceList_permission_bad (good : List Permission) (n : Int)
    (rest : List PyValue) (h : Permission.ofInt? n = none) :
    coerceList coercePermission
      ((good.map fun p => .int p.toInt) ++ .int n :: rest) =
      .error (.valueError (toString n ++ " is not a valid Permission")) := by
  induction good with
  | nil =>
    simp only [List.map_nil, List.nil_append, coerceList, coercePermission,
      pyIntLike?, h, Except.bind]
  | cons p rest1 ih =>
    simp only [List.map_cons, List.cons_append, coerceList, coercePermission_toInt,
      Except.bind, List.append_eq, ih, Except.map]

theorem urlFileStatusTranslate_ok (s : ImportStatus) :
    urlFileStatusTranslate (.obj [(.str "status", .int s.toInt)]) =
      .ok (.obj [(.str "status", .importStatus s)]) := by
  cases s <;> rfl

theorem coerceList_urlFileStatus_ok (statuses : List ImportStatus) :
    coerceList urlFileStatusTranslate
      (statuses.map fun s => .obj [(.str "status", .int s.toInt)]) =
      .ok (statuses.map fun s => .obj [(.str "status", .importStatus s)]) := by
  induction statuses with
  | nil => rfl
  | cons s rest ih =>
    simp only [List.map_cons, coerceList, urlFileStatusTranslate_ok, Except.bind, ih,
      Except.map]

/-! ### Message lemmas: a coercion `ValueError` message never equals the
`add_file` usage `ValueError` message. -/

/-! ### Re-keying lemmas: the in-place mutation loop of `file_metadata`
computes the entrywise re-keying the spec describes. -/

theorem statusKeyParses_str (k : PyKey) (ts : TagStatus)
    (h : statusKeyParses k = some ts) : ∃ s, k = PyKey.str s := by
  cases k with
  | str s => exact ⟨s, rfl⟩
  | tagStatus t => simp [statusKeyParses] at h

theorem statusKeyToTagStatus_of_parses (k : PyKey) (ts : TagStatus)
    (h : statusKeyParses k = some ts) : statusKeyToTagStatus k = .ok ts := by
  cases k with
  | str s =>
    simp only [statusKeyParses] at h
    cases hi : pyIntParse? s with
    | none => rw [hi] at h; cases h
    | some n =>
      rw [hi, Option.some_bind] at h
      simp only [statusKeyToTagStatus, hi, h]
  | tagStatus t => simp [statusKeyParses] at h

theorem rekeyLoop_spec (rest : List (PyKey × PyValue)) :
    ∀ post : List (PyKey × PyValue),
    (∀ p ∈ rest, (statusKeyParses p.1).isSome = true) →
    (∀ q ∈ post, ∃ ts, q.1 = PyKey.tagStatus ts) →
    ((post.map fun q => q.1) ++ rest.map fun p => (specRekeyEntry p).1).Nodup →
    rekeyLoop rest (rest ++ post) = .ok (post ++ specRekeyInner rest) := by
  induction rest with
  | nil => intro post _ _ _; simp [rekeyLoop, specRekeyInner]
  | cons hd rest2 ih =>
    intro post hrest hpost hnodup
    obtain ⟨k, tags⟩ := hd
    have hkmem := hrest (k, tags) (by simp)
    have hk : ∃ ts, statusKeyParses k = some ts := by
      cases hkp : statusKeyParses k with
      | none => rw [hkp] at hkmem; cases hkmem
      | some ts => exact ⟨ts, rfl⟩
    obtain ⟨ts, hts⟩ := hk
    obtain ⟨s, rfl⟩ := statusKeyParses_str k ts hts
    have hentry : specRekeyEntry (PyKey.str s, tags) = (PyKey.tagStatus ts, tags) := by
      simp [specRekeyEntry, hts]
    simp only [List.map_cons, hentry] at hnodup
    -- split the freshness facts out of the Nodup hypothesis
    have hnd := List.nodup_append.mp hnodup
    have hts_not_post : PyKey.tagStatus ts ∉ post.map fun q => q.1 := by
      intro hmem
      exact hnd.2.2 hmem (List.mem_cons_self _ _)
    have hts_not_B :
        PyKey.tagStatus ts ∉ rest2.map fun p => (specRekeyEntry p).1 :=
      (List.nodup_cons.mp hnd.2.1).1
    -- the typed key is fresh in the dict, so assignment appends it
    have hset : dictSet (((PyKey.str s, tags) :: rest2) ++ post)
        (PyKey.tagStatus ts) tags =
        (((PyKey.str s, tags) :: rest2) ++ post) ++ [(PyKey.tagStatus ts, tags)] := by
      apply dictSet_append_of_not_has
      rw [dictHasKey_eq_false_iff]
      intro q hq
      have hq1 : q = (PyKey.str s, tags) ∨ q ∈ rest2 ∨ q ∈ post := by
        simpa using hq
      rcases hq1 with rfl | hq12 | hq2
      · simp
      · intro hqk
        have := hrest q (by simp [hq12])
        rw [hqk] at this
        simp [statusKeyParses] at this
      · intro hqk
        exact hts_not_post (hqk ▸ List.mem_map_of_mem _ hq2)
    -- deleting the raw key removes exactly the head entry
    have hdel : dictDel ((((PyKey.str s, tags) :: rest2) ++ post)
        ++ [(PyKey.tagStatus ts, tags)]) (PyKey.str s) =
        rest2 ++ (post ++ [(PyKey.tagStatus ts, tags)]) := by
      have hshape : (((PyKey.str s, tags) :: rest2) ++ post)
          ++ [(PyKey.tagStatus ts, tags)] =
          (PyKey.str s, tags) :: (rest2 ++ (post ++ [(PyKey.tagStatus ts, tags)])) := by
        simp
      rw [hshape, dictDel_cons_self]
      apply dictDel_of_not_mem
      intro q hq
      rcases List.mem_append.mp hq with hq1 | hq2
      · intro hqk
        apply hts_not_B
        have : (specRekeyEntry q).1 = PyKey.tagStatus ts := by
          simp [specRekeyEntry, hqk, hts]
        exact this ▸ List.mem_map_of_mem _ hq1
      · rcases List.mem_append.mp hq2 with hq21 | hq22
        · obtain ⟨ts1, hts1⟩ := hpost q hq21
          simp [hts1]
        · rcases List.mem_singleton.mp hq22 with rfl
          simp
    -- one loop step, then the induction hypothesis on the grown suffix
    show (statusKeyToTagStatus (PyKey.str s)).bind _ = _
    rw [statusKeyToTagStatus_of_parses _ ts hts]
    show rekeyLoop rest2 (dictDel (dictSet _ _ _) _) = _
    rw [hset, hdel]
    have ihres := ih (post ++ [(PyKey.tagStatus ts, tags)])
      (fun p hp => hrest p (by simp [hp]))
      (fun q hq => by
        rcases List.mem_append.mp hq with hq1 | hq2
        · exact hpost q hq1
        · rcases List.mem_singleton.mp hq2 with rfl
          exact ⟨ts, rfl⟩)
      (by
        rw [List.map_append]
        simp only [List.map_cons, List.map_nil]
        rw [List.append_assoc, List.singleton_append]
        exact hnodup)
    rw [ihres]
    simp [specRekeyInner, hentry]

theorem rekeyStatuses_spec (inner : List (PyKey × PyValue)) (h : innerOk inner) :
    rekeyStatuses inner = .ok (specRekeyInner inner) := by
  have hres := rekeyLoop_spec inner [] h.1 (by simp) (by simpa using h.2)
  rw [List.append_nil] at hres
  simpa [rekeyStatuses] using hres

theorem translateServices_spec (services : List (PyKey × PyValue))
    (h : ∀ p ∈ services, ∃ inner, p.2 = PyValue.obj inner ∧ innerOk inner) :
    translateServices services = .ok (specRekeyServices services) := by
  induction services with
  | nil => rfl
  | cons p rest ih =>
    obtain ⟨k, v⟩ := p
    obtain ⟨inner, hinner, hok⟩ := h (k, v) (by simp)
    simp only at hinner
    subst hinner
    show (rekeyStatuses inner).bind _ = _
    rw [rekeyStatuses_spec inner hok,
      ih fun q hq => h q (by simp [hq])]
    simp [specRekeyServices, Except.bind, Except.map]

theorem append_ne_of_last_ne (pre suf fixed : String)
    (hne : suf.data ≠ [])
    (hlast : suf.data.reverse.head? ≠ fixed.data.reverse.head?) :
    pre ++ suf ≠ fixed := by
  intro h
  apply hlast
  have hd : pre.data ++ suf.data = fixed.data := by
    rw [← String.data_append, h]
  calc suf.data.reverse.head?
      = (suf.data.reverse ++ pre.data.reverse).head? := by
        rw [List.head?_append_of_ne_nil _ (by simpa using hne)]
    _ = fixed.data.reverse.head? := by rw [← List.reverse_append, hd]

/-! ### Claim C1: status-to-error mapping of the dispatcher -/

/-- C1, counterexample to the claim as stated: a 300 response is not a 2xx
status, yet `_call_endpoint` returns it to the caller without raising any
error, where the claim demands the generic `APIError` for "any other non-2xx
status" (`requests.Response.raise_for_status` only raises for statuses in
`[400, 600)`). -/
theorem C1_counterexample :
    ((Client.mk none "http://h")._call_endpoint
        (stubTransport ⟨300, .null, []⟩) "GET" "/e" [] [] none none).1 =
      .ok ⟨300, .null, []⟩ ∧
    ¬(200 ≤ (300 : Nat) ∧ (300 : Nat) < 300) :=
  ⟨rfl, by omega⟩

/-- C1 (amended): a response status in `[200,300)` — indeed any status
outside `[400,600)` — returns the response to the caller without raising;
400 raises `MissingParameter`; 401 and 403 raise `InsufficientAccess`;
500 raises `ServerError`; any other status in `[400,600)` raises the generic
`APIError`; and every raised error carries the original response object. -/
theorem C1_status_mapping (c : Client) (t : Transport) (method endpoint : String)
    (params : List (String × PyValue)) (headers : List (String × String))
    (jsonBody : Option PyValue) (rawBody : Option (List Nat))
    (response : HttpResponse)
    (hresp : t ⟨method, c._url ++ endpoint, attachAccessKey c._access_key headers,
      params, jsonBody, rawBody⟩ = response) :
    (200 ≤ response.statusCode ∧ response.statusCode < 300 →
      (c._call_endpoint t method endpoint params headers jsonBody rawBody).1 =
        .ok response) ∧
    (¬(400 ≤ response.statusCode ∧ response.statusCode < 600) →
      (c._call_endpoint t method endpoint params headers jsonBody rawBody).1 =
        .ok response) ∧
    (response.statusCode = 400 →
      (c._call_endpoint t method endpoint params headers jsonBody rawBody).1 =
        .error (.api (.MissingParameter response))) ∧
    (response.statusCode = 401 ∨ response.statusCode = 403 →
      (c._call_endpoint t method endpoint params headers jsonBody rawBody).1 =
        .error (.api (.InsufficientAccess response))) ∧
    (response.statusCode = 500 →
      (c._call_endpoint t method endpoint params headers jsonBody rawBody).1 =
        .error (.api (.ServerError response))) ∧
    (400 ≤ response.statusCode → response.statusCode < 600 →
      response.statusCode ≠ 400 → response.statusCode ≠ 401 →
      response.statusCode ≠ 403 → response.statusCode ≠ 500 →
      (c._call_endpoint t method endpoint params headers jsonBody rawBody).1 =
        .error (.api (.Generic response))) ∧
    (∀ e, (c._call_endpoint t method endpoint params headers jsonBody rawBody).1 =
        .error (.api e) → e.response = response) := by
  subst hresp
  have hout : (c._call_endpoint t method endpoint params headers jsonBody rawBody).1 =
      handleStatus (t ⟨method, c._url ++ endpoint,
        attachAccessKey c._access_key headers, params, jsonBody, rawBody⟩) := rfl
  refine ⟨fun h => ?_, fun h => ?_, fun h => ?_, fun h => ?_, fun h => ?_,
    fun h1 h2 h3 h4 h5 h6 => ?_, fun e he => ?_⟩
  · rw [hout, handleStatus_ok_of_2xx _ h.1 h.2]
  · rw [hout, handleStatus_ok_of_no_raise _ h]
  · rw [hout]; unfold handleStatus
    rw [if_pos (by omega), if_pos h]
  · rw [hout]; unfold handleStatus
    rw [if_pos (by omega), if_neg (by omega), if_pos h]
  · rw [hout]; unfold handleStatus
    rw [if_pos (by omega), if_neg (by omega), if_neg (by omega), if_pos h]
  · rw [hout]; unfold handleStatus
    rw [if_pos (by omega), if_neg h3, if_neg (by omega), if_neg h6]
  · rw [hout] at he
    obtain ⟨a, ha, har⟩ := handleStatus_error_api _ _ he
    injection ha with hea
    rw [hea]
    exact har

/-- Witness for C1: a concrete 404 (unlisted failure code) raises the generic
`APIError` carrying the response. -/
theorem C1_status_mapping_witness :
    ((Client.mk none "u")._call_endpoint (stubTransport ⟨404, .null, []⟩)
        "GET" "/e" [] [] none none).1 =
      .error (.api (.Generic ⟨404, .null, []⟩)) :=
  (C1_status_mapping (Client.mk none "u") (stubTransport ⟨404, .null, []⟩)
    "GET" "/e" [] [] none none ⟨404, .null, []⟩ rfl).2.2.2.2.2.1
    (by decide) (by decide) (by decide) (by decide) (by decide) (by decide)

/-! ### Claim C5: `add_file` argument dispatch -/

/-- C5: a str argument is sent as a JSON body holding the path; an
`io.BytesIO` argument is sent as the raw request body with header
`Content-Type: application/octet-stream`; any other argument type raises
`ValueError` with zero requests issued. -/
theorem C5_add_file_dispatch (c : Client) (t : Transport) (path : String)
    (content : List Nat) :
    (c.add_file t (.str path)).2 =
      [⟨"POST", c._url ++ Client._ADD_FILE_ENDPOINT,
        attachAccessKey c._access_key [], [],
        some (.obj [(.str "path", .str path)]), none⟩] ∧
    (c.add_file t (.bytesBuf content)).2 =
      [⟨"POST", c._url ++ Client._ADD_FILE_ENDPOINT,
        attachAccessKey c._access_key [("Content-Type", "application/octet-stream")],
        [], none, some content⟩] ∧
    dictGet? (attachAccessKey c._access_key
        [("Content-Type", "application/octet-stream")]) "Content-Type" =
      some "application/octet-stream" ∧
    c.add_file t .other = (.error (.valueError "Value must be file object or path"), []) := by
  refine ⟨rfl, rfl, ?_, rfl⟩
  cases hk : c._access_key with
  | none => rfl
  | some k =>
    simp only [attachAccessKey]
    by_cases hke : k = ""
    · rw [if_pos hke]; rfl
    · rw [if_neg hke]
      exact dictGet?_set_ne _ _ _ _ (by decide)

/-! ### Claim C7: `search_files` returns `file_ids` unreshaped -/

/-- C7: for a 2xx response whose body has a `file_ids` field, `search_files`
returns exactly that value, with no reshaping. -/
theorem C7_search_files_identity (c : Client) (t : Transport) (tags : PyValue)
    (inbox archive : Bool) (status : Nat) (fields : List (PyKey × PyValue))
    (ids : PyValue)
    (h2xx : 200 ≤ status ∧ status < 300)
    (hids : dictGet? fields (PyKey.str "file_ids") = some ids)
    (hresp : ∀ req, t req = ⟨status, .obj fields, []⟩) :
    (c.search_files t tags inbox archive).1 = .ok ids := by
  unfold Client.search_files Client._call_endpoint
  simp only [hresp,
    handleStatus_ok_of_2xx (⟨status, .obj fields, []⟩ : HttpResponse) h2xx.1 h2xx.2]
  simp [Except.bind, getItem, hids]

/-- Witness for C7: the spec round-trip scenario — a stub returning
`file_ids = [1, 2, 3]` yields exactly that sequence. -/
theorem C7_search_files_identity_witness :
    ((Client.mk none "u").search_files
        (stubTransport ⟨200, .obj [(.str "file_ids", .arr [.int 1, .int 2, .int 3])], []⟩)
        (.arr [.str "character:x"]) false false).1 =
      .ok (.arr [.int 1, .int 2, .int 3]) :=
  C7_search_files_identity (Client.mk none "u") _ (.arr [.str "character:x"])
    false false 200 [(.str "file_ids", .arr [.int 1, .int 2, .int 3])]
    (.arr [.int 1, .int 2, .int 3]) (by omega) rfl (fun req => rfl)

/-! ### Claim C6: construction-time version check -/

/-- C6: construction performs exactly one compatibility fetch (of the
api-version endpoint); when the reported version differs from
`Client.VERSION`, construction still completes with the client and surfaces
exactly the warning message (no error); when it matches, no warning is
emitted. -/
theorem C6_version_check (access_key : Option String) (url : String)
    (status : Nat) (fields : List (PyKey × PyValue)) (v : PyValue)
    (t : Transport)
    (h2xx : 200 ≤ status ∧ status < 300)
    (hv : dictGet? fields (PyKey.str "version") = some v)
    (hresp : ∀ req, t req = ⟨status, .obj fields, []⟩) :
    (Client.init access_key url t).2.2 =
      [⟨"GET", rstripSlashes url ++ Client._API_VERSION_ENDPOINT,
        attachAccessKey access_key [], [], none, none⟩] ∧
    (v.eqInt Client.VERSION = false →
      (Client.init access_key url t).1 = .ok ⟨access_key, rstripSlashes url⟩ ∧
      (Client.init access_key url t).2.1 = [versionWarning v]) ∧
    (v.eqInt Client.VERSION = true →
      (Client.init access_key url t).1 = .ok ⟨access_key, rstripSlashes url⟩ ∧
      (Client.init access_key url t).2.1 = []) := by
  unfold Client.init Client.api_version Client._call_endpoint
  simp only [hresp,
    handleStatus_ok_of_2xx (⟨status, .obj fields, []⟩ : HttpResponse) h2xx.1 h2xx.2]
  simp only [Except.bind, getItem, hv]
  cases hb : PyValue.eqInt v Client.VERSION with
  | false => simp [hb]
  | true => simp [hb]

/-- Witness for C6: a stub reporting version 5 yields a constructed client
plus one warning; a stub reporting version 4 yields no warning. -/
theorem C6_version_check_witness :
    (Client.init none "http://h/"
        (stubTransport ⟨200, .obj [(.str "version", .int 5)], []⟩)).2.1 =
      [versionWarning (.int 5)] ∧
    (Client.init none "http://h/"
        (stubTransport ⟨200, .obj [(.str "version", .int 4)], []⟩)).2.1 = [] :=
  ⟨((C6_version_check none "http://h/" 200 [(.str "version", .int 5)] (.int 5)
      (stubTransport ⟨200, .obj [(.str "version", .int 5)], []⟩)
      (by omega) rfl (fun req => rfl)).2.1 (by decide)).2,
   ((C6_version_check none "http://h/" 200 [(.str "version", .int 4)] (.int 4)
      (stubTransport ⟨200, .obj [(.str "version", .int 4)], []⟩)
      (by omega) rfl (fun req => rfl)).2.2 (by decide)).2⟩

/-! ### Claim C2: identity mutual exclusion before any network call -/

/-- C2, counterexample to the claim as stated: `get_file` with
`file_id = 0` and no hash has exactly one identity form supplied, yet the
usage error is raised with zero requests issued, because the check tests
Python truthiness and `bool(0)` is falsy. -/
theorem C2_counterexample :
    (Client.mk none "u").get_file (stubTransport ⟨200, .null, []⟩)
        .null (.int 0) =
      (.error (.exception "hash (exclusive) or file_id required"), []) ∧
    PyValue.int 0 ≠ PyValue.null :=
  ⟨rfl, by simp⟩

/-- C2 (amended): for each of `file_metadata`, `get_file` and
`get_thumbnail`, if the two identity arguments are both truthy or both falsy
(Python truthiness: `None`, `0`, and empty strings/lists are falsy), the
usage error — a bare `Exception` — is raised with zero requests issued;
if exactly one is truthy, exactly one request is issued and no bare
`Exception` is raised. -/
theorem C2_mutual_exclusion (c : Client) (t : Transport) :
    (∀ hashes file_ids : PyValue, ∀ only_identifiers : Bool,
      (Bool.xor (pyTruthy hashes) (pyTruthy file_ids) = false →
        c.file_metadata t hashes file_ids only_identifiers =
          (.error (.exception "hashes (exclusive) or file_ids required"), [])) ∧
      (Bool.xor (pyTruthy hashes) (pyTruthy file_ids) = true →
        (c.file_metadata t hashes file_ids only_identifiers).2.length = 1 ∧
        ∀ e, (c.file_metadata t hashes file_ids only_identifiers).1 = .error e →
          e.isException = false)) ∧
    (∀ hash_ file_id : PyValue,
      (Bool.xor (pyTruthy hash_) (pyTruthy file_id) = false →
        c.get_file t hash_ file_id =
          (.error (.exception "hash (exclusive) or file_id required"), [])) ∧
      (Bool.xor (pyTruthy hash_) (pyTruthy file_id) = true →
        (c.get_file t hash_ file_id).2.length = 1 ∧
        ∀ e, (c.get_file t hash_ file_id).1 = .error e →
          e.isException = false)) ∧
    (∀ hash_ file_id : PyValue,
      (Bool.xor (pyTruthy hash_) (pyTruthy file_id) = false →
        c.get_thumbnail t hash_ file_id =
          (.error (.exception "hash (exclusive) or file_id required"), [])) ∧
      (Bool.xor (pyTruthy hash_) (pyTruthy file_id) = true →
        (c.get_thumbnail t hash_ file_id).2.length = 1 ∧
        ∀ e, (c.get_thumbnail t hash_ file_id).1 = .error e →
          e.isException = false)) := by
  refine ⟨fun hashes file_ids oi => ⟨fun h => ?_, fun h => ⟨?_, fun e he => ?_⟩⟩,
    fun hash_ file_id => ⟨fun h => ?_, fun h => ⟨?_, fun e he => ?_⟩⟩,
    fun hash_ file_id => ⟨fun h => ?_, fun h => ⟨?_, fun e he => ?_⟩⟩⟩
  · simp [Client.file_metadata, h]
  · simp [Client.file_metadata, Client._call_endpoint, h]
  · simp only [Client.file_metadata, Client._call_endpoint, h, Bool.not_true,
      Bool.false_eq_true, if_false] at he
    rcases except_bind_error _ _ _ he with h1 | ⟨a, -, h2⟩
    · exact handleStatus_not_exception _ _ h1
    · exact fileMetadataTranslate_not_exception _ _ _ h2
  · simp [Client.get_file, h]
  · simp [Client.get_file, Client._call_endpoint, h]
  · simp only [Client.get_file, Client._call_endpoint, h, Bool.not_true,
      Bool.false_eq_true, if_false] at he
    exact handleStatus_not_exception _ _ (except_map_error _ _ _ he)
  · simp [Client.get_thumbnail, h]
  · simp [Client.get_thumbnail, Client._call_endpoint, h]
  · simp only [Client.get_thumbnail, Client._call_endpoint, h, Bool.not_true,
      Bool.false_eq_true, if_false] at he
    exact handleStatus_not_exception _ _ (except_map_error _ _ _ he)

/-- Witness for C2: hashes only (a non-empty list) passes the check and one
request is issued; a concrete both-and-neither pair raises with zero
requests. -/
theorem C2_mutual_exclusion_witness :
    ((Client.mk none "u").file_metadata (stubTransport ⟨200, .null, []⟩)
        (.arr [.str "a"]) .null false).2.length = 1 ∧
    (Client.mk none "u").get_thumbnail (stubTransport ⟨200, .null, []⟩)
        .null .null =
      (.error (.exception "hash (exclusive) or file_id required"), []) :=
  ⟨(((C2_mutual_exclusion (Client.mk none "u")
        (stubTransport ⟨200, .null, []⟩)).1 (.arr [.str "a"]) .null false).2
      (by decide)).1,
   (((C2_mutual_exclusion (Client.mk none "u")
        (stubTransport ⟨200, .null, []⟩)).2.2 .null .null).1 (by decide))⟩

/-! ### Claim C3: tag-status re-keying of `file_metadata` -/

/-- C3: in non-identifier-only mode, every statuses dict has each raw string
status key replaced by the corresponding `TagStatus` member with the tag
list preserved (the source's delete-and-reinsert loop equals the entrywise
re-keying the spec describes); the re-keying is applied per service entry;
and the record `dict("my tags" -> dict("0" -> ["a"]))` translates end to end
through `file_metadata` to the same structure keyed by `TagStatus.Current`
with the tag list `["a"]` unchanged. -/
theorem C3_rekey_statuses :
    (∀ inner : List (PyKey × PyValue), innerOk inner →
      rekeyStatuses inner = .ok (specRekeyInner inner)) ∧
    (∀ services : List (PyKey × PyValue),
      (∀ p ∈ services, ∃ inner, p.2 = PyValue.obj inner ∧ innerOk inner) →
      translateServices services = .ok (specRekeyServices services)) ∧
    ((Client.mk none "u").file_metadata
        (stubTransport ⟨200, .obj [(.str "metadata", .arr [.obj
          [(.str "service_names_to_statuses_to_tags", .obj
            [(.str "my tags", .obj [(.str "0", .arr [.str "a"])])])]])], []⟩)
        (.arr [.str "f"]) .null false).1 =
      .ok (.arr [.obj
        [(.str "service_names_to_statuses_to_tags", .obj
          [(.str "my tags", .obj [(.tagStatus .Current, .arr [.str "a"])])])]]) :=
  ⟨rekeyStatuses_spec, translateServices_spec, rfl⟩

/-- Witness for C3: a two-status dict re-keys to `Current` and `Deleted` with
both tag lists preserved, in order. -/
theorem C3_rekey_statuses_witness :
    rekeyStatuses [(.str "0", .arr [.str "a"]), (.str "2", .arr [.str "b"])] =
      .ok [(.tagStatus .Current, .arr [.str "a"]),
           (.tagStatus .Deleted, .arr [.str "b"])] :=
  C3_rekey_statuses.1
    [(.str "0", .arr [.str "a"]), (.str "2", .arr [.str "b"])]
    ⟨by decide, by decide⟩

/-! ### Claim C4: closed-set enum translation and the data-format error -/

/-- C4: for `add_file`, `get_url_files`, `get_url_info` and
`verify_access_key`, a 2xx response whose enumerated int fields lie inside
the closed set yields typed enum members in the result; an int outside the
closed set raises a `ValueError` whose message names the enum — an error
distinct from the `APIError` taxonomy, from the bare `Exception` of the
usage checks, and from the `add_file` usage `ValueError`. -/
theorem C4_enum_translation (c : Client) (status : Nat)
    (h2xx : 200 ≤ status ∧ status < 300) :
    (∀ t : Transport, ∀ path : String, ∀ fields : List (PyKey × PyValue), ∀ n : Int,
      dictGet? fields (PyKey.str "status") = some (.int n) →
      (∀ req, t req = ⟨status, .obj fields, []⟩) →
      (∀ s, ImportStatus.ofInt? n = some s →
        (c.add_file t (.str path)).1 =
          .ok (.obj (dictSet fields (PyKey.str "status") (.importStatus s)))) ∧
      (ImportStatus.ofInt? n = none →
        (c.add_file t (.str path)).1 =
          .error (.valueError (toString n ++ " is not a valid ImportStatus")))) ∧
    (∀ t : Transport, ∀ url : String, ∀ fields : List (PyKey × PyValue),
      (∀ statuses : List ImportStatus,
        dictGet? fields (PyKey.str "url_file_statuses") =
          some (.arr (statuses.map fun s => .obj [(.str "status", .int s.toInt)])) →
        (∀ req, t req = ⟨status, .obj fields, []⟩) →
        (c.get_url_files t url).1 =
          .ok (.obj (dictSet fields (PyKey.str "url_file_statuses")
            (.arr (statuses.map fun s => .obj [(.str "status", .importStatus s)]))))) ∧
      (∀ n : Int,
        dictGet? fields (PyKey.str "url_file_statuses") =
          some (.arr [.obj [(.str "status", .int n)]]) →
        (∀ req, t req = ⟨status, .obj fields, []⟩) →
        ImportStatus.ofInt? n = none →
        (c.get_url_files t url).1 =
          .error (.valueError (toString n ++ " is not a valid ImportStatus")))) ∧
    (∀ t : Transport, ∀ url : String, ∀ fields : List (PyKey × PyValue), ∀ n : Int,
      dictGet? fields (PyKey.str "url_type") = some (.int n) →
      (∀ req, t req = ⟨status, .obj fields, []⟩) →
      (∀ u, URLType.ofInt? n = some u →
        (c.get_url_info t url).1 =
          .ok (.obj (dictSet fields (PyKey.str "url_type") (.urlType u)))) ∧
      (URLType.ofInt? n = none →
        (c.get_url_info t url).1 =
          .error (.valueError (toString n ++ " is not a valid URLType")))) ∧
    (∀ t : Transport, ∀ fields : List (PyKey × PyValue),
      (∀ perms : List Permission,
        dictGet? fields (PyKey.str "basic_permissions") =
          some (.arr (perms.map fun p => .int p.toInt)) →
        (∀ req, t req = ⟨status, .obj fields, []⟩) →
        (c.verify_access_key t).1 =
          .ok (.obj (dictSet fields (PyKey.str "basic_permissions")
            (.arr (perms.map PyValue.permission))))) ∧
      (∀ good : List Permission, ∀ n : Int, ∀ rest : List PyValue,
        dictGet? fields (PyKey.str "basic_permissions") =
          some (.arr ((good.map fun p => .int p.toInt) ++ .int n :: rest)) →
        (∀ req, t req = ⟨status, .obj fields, []⟩) →
        Permission.ofInt? n = none →
        (c.verify_access_key t).1 =
          .error (.valueError (toString n ++ " is not a valid Permission")))) ∧
    (∀ m : String, ∀ a : APIError, PyError.valueError m ≠ .api a) ∧
    (∀ m m2 : String, PyError.valueError m ≠ .exception m2) ∧
    (∀ n : Int,
      toString n ++ " is not a valid ImportStatus" ≠
        "Value must be file object or path" ∧
      toString n ++ " is not a valid URLType" ≠
        "Value must be file object or path" ∧
      toString n ++ " is not a valid Permission" ≠
        "Value must be file object or path") := by
  refine ⟨fun t path fields n hfield hresp => ⟨fun s hs => ?_, fun hs => ?_⟩,
    fun t url fields => ⟨fun statuses hfield hresp => ?_,
      fun n hfield hresp hn => ?_⟩,
    fun t url fields n hfield hresp => ⟨fun u hu => ?_, fun hu => ?_⟩,
    fun t fields => ⟨fun perms hfield hresp => ?_,
      fun good n rest hfield hresp hn => ?_⟩,
    fun m a => by simp, fun m m2 => by simp,
    fun n => ⟨append_ne_of_last_ne _ _ _ (by decide) (by decide),
      append_ne_of_last_ne _ _ _ (by decide) (by decide),
      append_ne_of_last_ne _ _ _ (by decide) (by decide)⟩⟩
  · simp only [Client.add_file, Client._call_endpoint, hresp,
      handleStatus_ok_of_2xx (⟨status, .obj fields, []⟩ : HttpResponse) h2xx.1 h2xx.2]
    simp [Except.bind, addFileTranslate, getItem, hfield, coerceImportStatus,
      pyIntLike?, hs, setItem]
  · simp only [Client.add_file, Client._call_endpoint, hresp,
      handleStatus_ok_of_2xx (⟨status, .obj fields, []⟩ : HttpResponse) h2xx.1 h2xx.2]
    simp [Except.bind, addFileTranslate, getItem, hfield, coerceImportStatus,
      pyIntLike?, hs, setItem]
  · simp only [Client.get_url_files, Client._call_endpoint, hresp,
      handleStatus_ok_of_2xx (⟨status, .obj fields, []⟩ : HttpResponse) h2xx.1 h2xx.2]
    simp [Except.bind, getItem, hfield, coerceList_urlFileStatus_ok, setItem]
  · simp only [Client.get_url_files, Client._call_endpoint, hresp,
      handleStatus_ok_of_2xx (⟨status, .obj fields, []⟩ : HttpResponse) h2xx.1 h2xx.2]
    simp [Except.bind, getItem, hfield, coerceList, urlFileStatusTranslate,
      coerceImportStatus, pyIntLike?, hn, setItem, dictGet?, dictSet, dictHasKey]
  · simp only [Client.get_url_info, Client._call_endpoint, hresp,
      handleStatus_ok_of_2xx (⟨status, .obj fields, []⟩ : HttpResponse) h2xx.1 h2xx.2]
    simp [Except.bind, getItem, hfield, coerceURLType, pyIntLike?, hu, setItem]
  · simp only [Client.get_url_info, Client._call_endpoint, hresp,
      handleStatus_ok_of_2xx (⟨status, .obj fields, []⟩ : HttpResponse) h2xx.1 h2xx.2]
    simp [Except.bind, getItem, hfield, coerceURLType, pyIntLike?, hu, setItem]
  · simp only [Client.verify_access_key, Client._call_endpoint, hresp,
      handleStatus_ok_of_2xx (⟨status, .obj fields, []⟩ : HttpResponse) h2xx.1 h2xx.2]
    simp [Except.bind, getItem, hfield, coerceList_permission_ok, setItem]
  · simp only [Client.verify_access_key, Client._call_endpoint, hresp,
      handleStatus_ok_of_2xx (⟨status, .obj fields, []⟩ : HttpResponse) h2xx.1 h2xx.2]
    simp [Except.bind, getItem, hfield, coerceList_permission_bad _ _ _ hn, setItem]

/-- Witness for C4: a concrete `get_url_info` run translates `url_type = 0`
to the typed `PostURL`, and `url_type = 1` (a value absent from the closed
set) raises the data-format `ValueError`. -/
theorem C4_enum_translation_witness :
    ((Client.mk none "u").get_url_info
        (stubTransport ⟨200, .obj [(.str "url_type", .int 0)], []⟩) "x").1 =
      .ok (.obj [(.str "url_type", .urlType .PostURL)]) ∧
    ((Client.mk none "u").get_url_info
        (stubTransport ⟨200, .obj [(.str "url_type", .int 1)], []⟩) "x").1 =
      .error (.valueError (toString (1 : Int) ++ " is not a valid URLType")) :=
  ⟨by
    have h := (((C4_enum_translation (Client.mk none "u") 200 (by omega)).2.2.1
      (stubTransport ⟨200, .obj [(.str "url_type", .int 0)], []⟩) "x"
      [(.str "url_type", .int 0)] 0 rfl (fun req => rfl)).1 .PostURL rfl)
    simpa [dictSet, dictHasKey] using h,
   (((C4_enum_translation (Client.mk none "u") 200 (by omega)).2.2.1
      (stubTransport ⟨200, .obj [(.str "url_type", .int 1)], []⟩) "x"
      [(.str "url_type", .int 1)] 1 rfl (fun req => rfl)).2 rfl)⟩

/-! ### Claim C8: credential attachment and immutability -/

theorem runOp_shape (c : Client) (t : Transport) (op : OpCall) :
    (runOp c t op).client = c ∧
    ∀ req ∈ (runOp c t op).requests,
      ∃ h, req.headers = attachAccessKey c._access_key h ∧
        dictGet? h "Hydrus-Client-API-Access-Key" = none := by
  cases op with
  | api_version =>
      exact ⟨rfl, fun req hreq => by
        rcases List.mem_singleton.mp hreq with rfl; exact ⟨[], rfl, rfl⟩⟩
  | request_new_permissions name permissions =>
      exact ⟨rfl, fun req hreq => by
        rcases List.mem_singleton.mp hreq with rfl; exact ⟨[], rfl, rfl⟩⟩
  | verify_access_key =>
      exact ⟨rfl, fun req hreq => by
        rcases List.mem_singleton.mp hreq with rfl; exact ⟨[], rfl, rfl⟩⟩
  | add_file arg =>
      refine ⟨rfl, fun req hreq => ?_⟩
      cases arg with
      | str path =>
          rcases List.mem_singleton.mp hreq with rfl; exact ⟨[], rfl, rfl⟩
      | bytesBuf content =>
          rcases List.mem_singleton.mp hreq with rfl
          exact ⟨[("Content-Type", "application/octet-stream")], rfl, by decide⟩
      | other => exact absurd hreq (List.not_mem_nil req)
  | clean_tags tags =>
      exact ⟨rfl, fun req hreq => by
        rcases List.mem_singleton.mp hreq with rfl; exact ⟨[], rfl, rfl⟩⟩
  | get_tag_services =>
      exact ⟨rfl, fun req hreq => by
        rcases List.mem_singleton.mp hreq with rfl; exact ⟨[], rfl, rfl⟩⟩
  | add_tags hashes stt sta =>
      exact ⟨rfl, fun req hreq => by
        rcases List.mem_singleton.mp hreq with rfl; exact ⟨[], rfl, rfl⟩⟩
  | get_url_files url =>
      exact ⟨rfl, fun req hreq => by
        rcases List.mem_singleton.mp hreq with rfl; exact ⟨[], rfl, rfl⟩⟩
  | get_url_info url =>
      exact ⟨rfl, fun req hreq => by
        rcases List.mem_singleton.mp hreq with rfl; exact ⟨[], rfl, rfl⟩⟩
  | add_url url page_name stt =>
      exact ⟨rfl, fun req hreq => by
        rcases List.mem_singleton.mp hreq with rfl; exact ⟨[], rfl, rfl⟩⟩
  | associate_url hashes add delete =>
      exact ⟨rfl, fun req hreq => by
        rcases List.mem_singleton.mp hreq with rfl; exact ⟨[], rfl, rfl⟩⟩
  | search_files tags inbox archive =>
      exact ⟨rfl, fun req hreq => by
        rcases List.mem_singleton.mp hreq with rfl; exact ⟨[], rfl, rfl⟩⟩
  | file_metadata hashes file_ids oi =>
      refine ⟨rfl, fun req hreq => ?_⟩
      simp only [runOp] at hreq
      unfold Client.file_metadata at hreq
      split at hreq
      · simp at hreq
      · rcases List.mem_singleton.mp hreq with rfl; exact ⟨[], rfl, rfl⟩
  | get_file hash_ file_id =>
      refine ⟨rfl, fun req hreq => ?_⟩
      simp only [runOp] at hreq
      unfold Client.get_file at hreq
      split at hreq
      · simp at hreq
      · rcases List.mem_singleton.mp hreq with rfl; exact ⟨[], rfl, rfl⟩
  | get_thumbnail hash_ file_id =>
      refine ⟨rfl, fun req hreq => ?_⟩
      simp only [runOp] at hreq
      unfold Client.get_thumbnail at hreq
      split at hreq
      · simp at hreq
      · rcases List.mem_singleton.mp hreq with rfl; exact ⟨[], rfl, rfl⟩

/-- C8: for every operation, when the stored access key is truthy it is
attached as the `Hydrus-Client-API-Access-Key` header on every outbound
request; with no key configured, no such header is attached; and no
operation ever mutates the client state captured at construction. -/
theorem C8_credential_attachment (c : Client) (t : Transport) (op : OpCall) :
    (runOp c t op).client = c ∧
    (∀ k, c._access_key = some k → k ≠ "" →
      ∀ req ∈ (runOp c t op).requests,
        dictGet? req.headers "Hydrus-Client-API-Access-Key" = some k) ∧
    (c._access_key = none →
      ∀ req ∈ (runOp c t op).requests,
        dictGet? req.headers "Hydrus-Client-API-Access-Key" = none) := by
  obtain ⟨hcl, hshape⟩ := runOp_shape c t op
  refine ⟨hcl, fun k hk hke req hreq => ?_, fun hk req hreq => ?_⟩
  · obtain ⟨h, hh, -⟩ := hshape req hreq
    rw [hh, hk]
    exact dictGet?_attachAccessKey_some k h hke
  · obtain ⟨h, hh, hnone⟩ := hshape req hreq
    rw [hh, hk, attachAccessKey_none]
    exact hnone

/-- Witness for C8: a client holding key `"abc"` attaches exactly that header
value on the `get_tag_services` request. -/
theorem C8_credential_attachment_witness :
    dictGet? (HttpRequest.mk "GET" ("u" ++ Client._GET_TAG_SERVICES_ENDPOINT)
        (attachAccessKey (some "abc") []) [] none none).headers
      "Hydrus-Client-API-Access-Key" = some "abc" :=
  (C8_credential_attachment ⟨some "abc", "u"⟩ (stubTransport ⟨200, .null, []⟩)
    .get_tag_services).2.1 "abc" rfl (by decide) _ (List.mem_singleton.mpr rfl)

/-! ### Claim C9: an empty-string access key behaves like no key -/

theorem call_endpoint_empty_key (u : String) (t : Transport) (m e : String)
    (p : List (String × PyValue)) (h : List (String × String))
    (jb : Option PyValue) (rb : Option (List Nat)) :
    Client._call_endpoint ⟨some "", u⟩ t m e p h jb rb =
      Client._call_endpoint ⟨none, u⟩ t m e p h jb rb := by
  simp [Client._call_endpoint, attachAccessKey_empty, attachAccessKey_none]

/-- C9: a client constructed with the empty-string access key behaves
identically to one constructed with no key — every operation returns the
same value and issues the same requests (in particular, no authentication
header is attached), and construction emits the same warnings and requests —
because the key is tested by truthiness. -/
theorem C9_empty_access_key (u : String) (t : Transport) :
    (∀ op : OpCall,
      (runOp ⟨some "", u⟩ t op).result = (runOp ⟨none, u⟩ t op).result ∧
      (runOp ⟨some "", u⟩ t op).requests = (runOp ⟨none, u⟩ t op).requests) ∧
    (Client.init (some "") u t).2 = (Client.init none u t).2 := by
  constructor
  · intro op
    cases op
    case add_file arg =>
      cases arg <;> refine ⟨?_, ?_⟩ <;>
        simp only [runOp, Client.add_file, call_endpoint_empty_key]
    all_goals refine ⟨?_, ?_⟩ <;>
      simp only [runOp, Client.api_version, Client.request_new_permissions,
        Client.verify_access_key, Client.clean_tags, Client.get_tag_services,
        Client.add_tags, Client.get_url_files, Client.get_url_info,
        Client.add_url, Client.associate_url, Client.search_files,
        Client.file_metadata, Client.get_file, Client.get_thumbnail,
        call_endpoint_empty_key]
  · have hc := call_endpoint_empty_key (rstripSlashes u) t "GET"
      Client._API_VERSION_ENDPOINT [] [] none none
    simp only [Client.init, Client.api_version, hc]
    cases (Client._call_endpoint ⟨none, rstripSlashes u⟩ t "GET"
        Client._API_VERSION_ENDPOINT [] [] none none).1.bind
        (fun response => getItem response.body "version") with
    | error e => rfl
    | ok v =>
      by_cases hb : PyValue.eqInt v Client.VERSION = true <;> simp [hb]

/-! ### Claim C10: trailing slashes on the base URL are irrelevant -/

/-- C10: a client built from `u` and one built from `u` followed by any
number of trailing slash characters behave identically — construction and
every operation produce the same requests (hence identical full URLs) —
because trailing slashes are stripped once at construction. -/
theorem C10_trailing_slashes (access_key : Option String) (u : String)
    (n : Nat) (t : Transport) :
    (∀ op : OpCall,
      runOp ⟨access_key, rstripSlashes (u ++ String.mk (List.replicate n '/'))⟩
          t op =
        runOp ⟨access_key, rstripSlashes u⟩ t op) ∧
    Client.init access_key (u ++ String.mk (List.replicate n '/')) t =
      Client.init access_key u t ∧
    (∀ endpoint : String,
      rstripSlashes (u ++ String.mk (List.replicate n '/')) ++ endpoint =
        rstripSlashes u ++ endpoint) := by
  have h := rstripSlashes_append_slashes u n
  exact ⟨fun op => by rw [h], by unfold Client.init; rw [h],
    fun endpoint => by rw [h]⟩

end Hydrus
